import Mathlib

/-!
Shallow embedding of the chip-selection and dispatch engine of
prog/sensors/main.c (lm-sensors), together with proofs about it.

The embedding covers: the chip-name formatter `sprintf_chip_name`, the
action handlers `do_a_set` and `do_a_print`, the dispatcher
`do_the_real_work`, the spec-list construction and exit logic of `main`,
and models (from the design document) of the external matcher and
chip-name parser that live in the library, outside this file's source.
-/

/-! ### Digit rendering and parsing helpers (embedding printf %x / %d digits) -/

/-- Digit characters as produced by printf: `0`..`9`, then lowercase `a`..`f`
(code points 48..57 and 97..102). -/
def hexDigit (m : Nat) : Char :=
  if m < 10 then Char.ofNat (48 + m)
  else if m < 16 then Char.ofNat (87 + m)
  else 'f'

/-- Value of a lowercase hexadecimal digit character, as read by strtol base 16. -/
def hexVal (c : Char) : Option Nat :=
  if '0' ≤ c ∧ c ≤ '9' then some (c.toNat - 48)
  else if 'a' ≤ c ∧ c ≤ 'f' then some (c.toNat - 87)
  else none

/-- Value of a decimal digit character, as read by strtol base 10. -/
def decVal (c : Char) : Option Nat :=
  if '0' ≤ c ∧ c ≤ '9' then some (c.toNat - 48) else none

/-- Most-significant-first digit expansion of `n` in the given base.
The first argument is recursion fuel; any fuel at least `n` gives the digits. -/
def toDigitsCore (base : Nat) (dig : Nat → Char) : Nat → Nat → List Char
  | 0, _ => []
  | fuel + 1, n =>
      if n = 0 then []
      else toDigitsCore base dig fuel (n / base) ++ [dig (n % base)]

/-- Lowercase hexadecimal rendering of `n`, as printed by printf %x. -/
def toHexList (n : Nat) : List Char :=
  if n = 0 then ['0'] else toDigitsCore 16 hexDigit n n

/-- Decimal rendering of `n`, as printed by printf %d on a non-negative value. -/
def toDecList (n : Nat) : List Char :=
  if n = 0 then ['0'] else toDigitsCore 10 hexDigit n n

/-- Zero padding to a minimum field width, as done by printf %0Nx. -/
def zeroPad (w : Nat) (l : List Char) : List Char :=
  List.replicate (w - l.length) '0' ++ l

/-- Rendering of printf "%04x". -/
def hex4 (n : Nat) : String := ⟨zeroPad 4 (toHexList n)⟩

/-- Rendering of printf "%02x". -/
def hex2 (n : Nat) : String := ⟨zeroPad 2 (toHexList n)⟩

/-- Rendering of printf "%d" on a non-negative value. -/
def decStr (n : Nat) : String := ⟨toDecList n⟩

/-- One strtol-style step: fold the next digit character into the accumulator. -/
def digitsStep (dv : Char → Option Nat) (base : Nat)
    (acc : Option Nat) (c : Char) : Option Nat :=
  acc.bind fun a => (dv c).map fun v => base * a + v

/-- Read a digit string in the given base, failing on any non-digit character. -/
def parseDigits (dv : Char → Option Nat) (base : Nat) (l : List Char) : Option Nat :=
  l.foldl (digitsStep dv base) (some 0)

/-- Read a non-empty lowercase hexadecimal string. -/
def parseHexStr (s : String) : Option Nat :=
  if s.data = [] then none else parseDigits hexVal 16 s.data

/-- Read a non-empty decimal string. -/
def parseDecStr (s : String) : Option Nat :=
  if s.data = [] then none else parseDigits decVal 10 s.data

/-! ### Data model -/

/-- Bus identity of a concrete detected chip: the branches that
`sprintf_chip_name` distinguishes on the `bus` field (the ISA, PCI and DUMMY
sentinel values of `sensors_chip_name`, and otherwise an I2C bus number). -/
inductive BusId where
  | isa
  | pci
  | dummy (busname : String)
  | i2c (nr : Nat)
  deriving DecidableEq

/-- A concrete detected chip (`sensors_chip_name` with no wildcard field):
driver name, bus, device address. -/
structure ChipName where
  pre : String
  bus : BusId
  addr : Nat
  deriving DecidableEq

/-- Bus pattern of a chip-name spec: a concrete bus kind, a wildcard over all
buses, or an I2C bus with an optionally wildcarded bus number. -/
inductive BusPattern where
  | any
  | isa
  | pci
  | dummy (busname : String)
  | i2c (nr : Option Nat)
  deriving DecidableEq

/-- A user-supplied chip-name pattern (`sensors_chip_name` with wildcards):
`none` in a field is the ANY wildcard. -/
structure ChipSpec where
  pre : Option String
  bus : BusPattern
  addr : Option Nat
  deriving DecidableEq

/-! ### Matcher and parser (external library collaborators, modelled) -/

/-- Modelled from the spec: `sensors_match_chip` is library code not under
src/. Per the design document, each field matches independently: the pattern
field is either the ANY wildcard or must equal the detected chip's field
exactly (DUMMY bus names compare by full string equality; an I2C pattern with
a wildcard bus number matches every I2C bus). -/
def sensors_match_chip (chip : ChipName) (sp : ChipSpec) : Bool :=
  (match sp.pre with
   | none => true
   | some p => p == chip.pre) &&
  (match sp.bus, chip.bus with
   | .any, _ => true
   | .isa, .isa => true
   | .pci, .pci => true
   | .dummy s, .dummy t => s == t
   | .i2c none, .i2c _ => true
   | .i2c (some n), .i2c m => n == m
   | _, _ => false) &&
  (match sp.addr with
   | none => true
   | some a => a == chip.addr)

/-! ### Formatter (from source: sprintf_chip_name, main.c lines 296-312) -/

/-- Renders a detected chip's canonical name, branching on the bus field:
ISA and PCI as `prefix-isa-%04x` / `prefix-pci-%04x`, DUMMY as
`prefix-busname-%04x`, and everything else as `prefix-i2c-%d-%02x`. -/
def sprintf_chip_name (name : ChipName) : String :=
  match name.bus with
  | .isa => name.pre ++ "-isa-" ++ hex4 name.addr
  | .pci => name.pre ++ "-pci-" ++ hex4 name.addr
  | .dummy bn => name.pre ++ "-" ++ bn ++ "-" ++ hex4 name.addr
  | .i2c nr => name.pre ++ "-i2c-" ++ decStr nr ++ "-" ++ hex2 name.addr

/-! ### Chip-name pattern parser (external library collaborator, modelled) -/

/-- Split a character list at every dash, the separator of the chip-name
grammar. The result is always non-empty. -/
def splitDash : List Char → List (List Char)
  | [] => [[]]
  | c :: rest =>
      if c = '-' then [] :: splitDash rest
      else
        match splitDash rest with
        | [] => [[c]]
        | g :: gs => (c :: g) :: gs

/-- A prefix token: a literal `*` is the ANY wildcard, anything else literal. -/
def parseTokenPre (t : String) : Option String :=
  if t = "*" then none else some t

/-- An address token: `*` is the ANY wildcard, otherwise hexadecimal. -/
def parseAddrTok (t : String) : Option (Option Nat) :=
  if t = "*" then some none else (parseHexStr t).map some

/-- An I2C bus-number token: `*` is the ANY wildcard, otherwise decimal. -/
def parseBusNrTok (t : String) : Option (Option Nat) :=
  if t = "*" then some none else (parseDecStr t).map some

/-- Modelled from the spec: `sensors_parse_chip_name` is library code not
under src/. Per the design document's grammar
`<prefix-or-*>-<isa|pci|i2c|busname>-<bus-or-*>-<addr-or-*>` and the
formatter's shapes: a two-part name `p-*` wildcards the whole bus, a
three-part name is an ISA, PCI or DUMMY chip (bus keyword `i2c` demands a bus
number and is refused here), and a four-part name with keyword `i2c` is an
I2C chip with bus number and address. -/
def sensors_parse_chip_name (s : String) : Option ChipSpec :=
  match (splitDash s.data).map (fun l => String.mk l) with
  | [p, b] =>
      if b = "*" then some ⟨parseTokenPre p, .any, none⟩ else none
  | [p, b, a] =>
      if b = "i2c" then none
      else
        (parseAddrTok a).map fun ad =>
          ⟨parseTokenPre p,
            if b = "isa" then .isa else if b = "pci" then .pci else .dummy b,
            ad⟩
  | [p, b, n, a] =>
      if b = "i2c" then
        (parseBusNrTok n).bind fun nr =>
          (parseAddrTok a).map fun ad => ⟨parseTokenPre p, .i2c nr, ad⟩
      else none
  | _ => none

/-- Well-formedness of a detected chip's bus for the round-trip property: a
DUMMY bus name must not contain the dash separator and must not be one of the
reserved bus keywords of the pattern grammar. -/
def wf_bus : BusId → Prop
  | .dummy bn => '-' ∉ bn.data ∧ bn ≠ "isa" ∧ bn ≠ "pci" ∧ bn ≠ "i2c"
  | _ => True

instance (b : BusId) : Decidable (wf_bus b) := by
  cases b <;> simp only [wf_bus] <;> infer_instance

/-! ### Spec-list construction (from source: main, lines 210-224) -/

/-- CHIPS_MAX, main.c line 54: capacity of the global `chips` array. -/
def CHIPS_MAX : Nat := 20

/-- Outcome of building the spec list from the command-line arguments:
a chip name that fails to parse and hitting the capacity check are both
fatal (main exits 1 before any dispatch); otherwise the parsed list. -/
inductive BuildOutcome where
  | parseError
  | tooMany
  | ok (specs : List ChipSpec)
  deriving DecidableEq

/-- The argument loop of main (lines 216-224): each argument is given
by its parse result (`none` for a parse error). A parse error is fatal at
once; after a successful parse the incremented count is compared against
CHIPS_MAX and equality is fatal. -/
def build_specs_go : List (Option ChipSpec) → Nat → List ChipSpec → BuildOutcome
  | [], _, acc => .ok acc
  | none :: _, _, _ => .parseError
  | some sp :: rest, cnt, acc =>
      if cnt + 1 = CHIPS_MAX then .tooMany
      else build_specs_go rest (cnt + 1) (acc ++ [sp])

/-- Spec-list construction of main (lines 210-224): with no arguments the
list is the single all-wildcard spec, otherwise the argument loop runs. -/
def build_specs (args : List (Option ChipSpec)) : BuildOutcome :=
  match args with
  | [] => .ok [⟨none, .any, none⟩]
  | _ :: _ => build_specs_go args 0 []

/-! ### Action handlers (from source: do_a_set lines 275-294, do_a_print lines 314-332) -/

/-- Command-line flags read by the dispatcher and the print action. -/
structure Flags where
  do_sets : Bool
  do_unknown : Bool
  hide_adapter : Bool
  hide_unknown : Bool

/-- Modelled from the spec: the "write partially failed" status code of the
external library (lib/error.h is not under src/); only its distinctness from
zero and from the permission code matters. -/
def SENSORS_ERR_ACCESS_W : Int := 10

/-- Modelled from the spec: the "read-only filesystem / permission" status
code of the external library (lib/error.h is not under src/); only its
distinctness from zero and from the partial-write code matters. -/
def SENSORS_ERR_PROC : Int := 11

/-- Modelled from the spec: the integer bus codes of `sensors_chip_name`
(lib/sensors.h is not under src/): ISA, PCI and DUMMY use distinct negative
sentinels, an I2C bus is its non-negative bus number. -/
def busCode : BusId → Int
  | .isa => -1
  | .pci => -5
  | .dummy _ => -4
  | .i2c n => n

/-- Rendering of printf "%d" on an integer. -/
def intRepr (i : Int) : String :=
  if i < 0 then "-" ++ String.mk (toDecList i.natAbs) else String.mk (toDecList i.toNat)

/-- The Set action (do_a_set): apply the chip's configured writes through the
external capability `doChipSets` and classify its status code. Returns
whether the action failed (C returns 1) together with the stderr lines.
Only the permission code reports failure to the caller; the partial-write
code and every other non-zero code print a diagnostic and fall through to
the success return. -/
def do_a_set (doChipSets : ChipName → Int) (strerror : Int → String)
    (name : ChipName) : Bool × List String :=
  if doChipSets name ≠ 0 then
    if doChipSets name = -SENSORS_ERR_PROC then
      (true, [sprintf_chip_name name ++ ": " ++ strerror (doChipSets name) ++ " for writing;",
              "Run as root?"])
    else if doChipSets name = -SENSORS_ERR_ACCESS_W then
      (false, [sprintf_chip_name name ++ ": At least one \"set\" statement failed"])
    else
      (false, [sprintf_chip_name name ++ ": " ++ strerror (doChipSets name)])
  else (false, [])

/-- The Print action (do_a_print): under the hide-unknown flag it returns at
once with no output; otherwise it prints the chip name, optionally the
adapter name (a failed lookup goes to stderr only), then the chip body from
the external renderer selected by the do-unknown flag, then a blank line.
Returns the stdout lines and the stderr lines; the C function returns void,
so the action never reports failure. -/
def do_a_print (fl : Flags) (adapterName : BusId → Option String)
    (genericChip unknownChip : ChipName → List String)
    (name : ChipName) : List String × List String :=
  if fl.hide_unknown then ([], [])
  else
    let adapPart : List String × List String :=
      if !fl.hide_adapter then
        match adapterName name.bus with
        | some adap => (["Adapter: " ++ adap], [])
        | none => ([], ["Can't get adapter name for bus " ++ intRepr (busCode name.bus)])
      else ([], [])
    let body := if fl.do_unknown then unknownChip name else genericChip name
    ([sprintf_chip_name name] ++ adapPart.1 ++ body ++ [""], adapPart.2)

/-! ### Dispatcher (from source: do_the_real_work, lines 253-272) -/

/-- The inner spec loop of do_the_real_work (lines 261-262 with the
`i = chips_count` break at 268): the first spec of the list that matches the
chip, if any. -/
def scan_specs (chip : ChipName) : List ChipSpec → Option ChipSpec
  | [] => none
  | sp :: rest =>
      if sensors_match_chip chip sp then some sp else scan_specs chip rest

/-- Observable result of a dispatcher run: the returned count, the aggregate
error flag (the `*error` out-parameter), the stdout and stderr lines, and the
trace of chips an action was performed on, in order. -/
structure RunResult where
  cnt : Nat
  error : Bool
  out : List String
  err : List String
  dispatched : List ChipName
  deriving DecidableEq

/-- The dispatcher (do_the_real_work): walk the detected chips in order; for
each chip that some spec matches, perform exactly one action — Set when the
set flag is on (folding a failed Set into the error flag), Print otherwise —
and count it; chips matching no spec are skipped. The detected chips are the
external enumerator's output, consumed as a finite list. -/
def do_the_real_work (fl : Flags) (adapterName : BusId → Option String)
    (genericChip unknownChip : ChipName → List String)
    (doChipSets : ChipName → Int) (strerror : Int → String)
    (specs : List ChipSpec) : List ChipName → RunResult
  | [] => ⟨0, false, [], [], []⟩
  | chip :: rest =>
      let r := do_the_real_work fl adapterName genericChip unknownChip
        doChipSets strerror specs rest
      match scan_specs chip specs with
      | none => r
      | some _ =>
          if fl.do_sets then
            let s := do_a_set doChipSets strerror chip
            ⟨r.cnt + 1, s.1 || r.error, r.out, s.2 ++ r.err, chip :: r.dispatched⟩
          else
            let p := do_a_print fl adapterName genericChip unknownChip chip
            ⟨r.cnt + 1, r.error, p.1 ++ r.out, p.2 ++ r.err, chip :: r.dispatched⟩

/-! ### Exit logic (from source: main, lines 236-249) -/

/-- The not-found message of main: when the first spec's chip name is the ANY
wildcard (the no-argument default, also the zero-initialized global) the
generic advice is printed, otherwise the specified-not-found message. -/
def not_found_message (chips : List ChipSpec) : String :=
  match chips with
  | sp :: _ =>
      if sp.pre = none then
        "No sensors found!\nMake sure you loaded all the kernel drivers you need.\nTry sensors-detect to find out which these are.\n"
      else "Specified sensor(s) not found!\n"
  | [] =>
      "No sensors found!\nMake sure you loaded all the kernel drivers you need.\nTry sensors-detect to find out which these are.\n"

/-- The tail of main (lines 236-249): a non-zero count exits with the error
flag as status; a zero count prints the not-found message and exits 1.
Returns the exit status and the stderr lines. -/
def main_exit (chips : List ChipSpec) (cnt : Nat) (error : Bool) : Nat × List String :=
  if cnt ≠ 0 then (if error then 1 else 0, [])
  else (1, [not_found_message chips])

/-! ### Helper lemmas: strings and digits -/

theorem string_append_data (a b : String) : (a ++ b).data = a.data ++ b.data := rfl

theorem hexDigit_facts (m : Nat) (hm : m < 16) :
    hexVal (hexDigit m) = some m ∧ hexDigit m ≠ '-' ∧ hexDigit m ≠ '*' ∧
      (m < 10 → decVal (hexDigit m) = some m) := by
  interval_cases m <;>
    exact ⟨by decide, by decide, by decide, by intro h; first | decide | omega⟩

theorem mem_toDigitsCore (base : Nat) (dig : Nat → Char) (hb : 0 < base) :
    ∀ fuel n c, c ∈ toDigitsCore base dig fuel n → ∃ m, m < base ∧ c = dig m := by
  intro fuel
  induction fuel with
  | zero => intro n c h; simp [toDigitsCore] at h
  | succ fuel ih =>
    intro n c h
    rw [toDigitsCore] at h
    by_cases h0 : n = 0
    · rw [if_pos h0] at h; simp at h
    · rw [if_neg h0] at h
      rcases List.mem_append.mp h with h1 | h1
      · exact ih _ _ h1
      · simp at h1
        exact ⟨n % base, Nat.mod_lt _ hb, h1⟩

theorem mem_toHexList (n : Nat) (c : Char) (h : c ∈ toHexList n) :
    ∃ m, m < 16 ∧ c = hexDigit m := by
  unfold toHexList at h
  by_cases h0 : n = 0
  · rw [if_pos h0] at h; simp at h
    exact ⟨0, by omega, h⟩
  · rw [if_neg h0] at h
    exact mem_toDigitsCore 16 hexDigit (by omega) n n c h

theorem mem_toDecList (n : Nat) (c : Char) (h : c ∈ toDecList n) :
    ∃ m, m < 10 ∧ c = hexDigit m := by
  unfold toDecList at h
  by_cases h0 : n = 0
  · rw [if_pos h0] at h; simp at h
    exact ⟨0, by omega, h⟩
  · rw [if_neg h0] at h
    exact mem_toDigitsCore 10 hexDigit (by omega) n n c h

theorem mem_zeroPad_toHexList (w n : Nat) (c : Char)
    (h : c ∈ zeroPad w (toHexList n)) : ∃ m, m < 16 ∧ c = hexDigit m := by
  rcases List.mem_append.mp h with h1 | h1
  · exact ⟨0, by omega, List.eq_of_mem_replicate h1⟩
  · exact mem_toHexList n c h1

theorem toHexList_ne_nil (n : Nat) : toHexList n ≠ [] := by
  unfold toHexList
  by_cases h0 : n = 0
  · rw [if_pos h0]; simp
  · rw [if_neg h0]
    rcases n with _ | m
    · omega
    · rw [toDigitsCore, if_neg h0]; simp

theorem toDecList_ne_nil (n : Nat) : toDecList n ≠ [] := by
  unfold toDecList
  by_cases h0 : n = 0
  · rw [if_pos h0]; simp
  · rw [if_neg h0]
    rcases n with _ | m
    · omega
    · rw [toDigitsCore, if_neg h0]; simp

theorem zeroPad_toHexList_ne_nil (w n : Nat) : zeroPad w (toHexList n) ≠ [] := by
  unfold zeroPad
  intro h
  rcases List.append_eq_nil.mp h with ⟨_, h2⟩
  exact toHexList_ne_nil n h2

theorem foldl_digits_core (dv : Char → Option Nat) (base : Nat) (dig : Nat → Char)
    (hb : 1 < base) (hdig : ∀ m, m < base → dv (dig m) = some m) :
    ∀ fuel n acc, n ≤ fuel →
      ∃ k, List.foldl (digitsStep dv base) (some acc) (toDigitsCore base dig fuel n) =
        some (acc * base ^ k + n) := by
  intro fuel
  induction fuel with
  | zero =>
    intro n acc h
    have h0 : n = 0 := by omega
    subst h0
    exact ⟨0, by simp [toDigitsCore]⟩
  | succ fuel ih =>
    intro n acc h
    by_cases h0 : n = 0
    · subst h0
      exact ⟨0, by simp [toDigitsCore]⟩
    · have hdiv : n / base ≤ fuel := by
        have := Nat.div_lt_self (Nat.pos_of_ne_zero h0) hb
        omega
      obtain ⟨k, hk⟩ := ih (n / base) acc hdiv
      refine ⟨k + 1, ?_⟩
      rw [toDigitsCore, if_neg h0, List.foldl_append, hk]
      have hmod : n % base < base := Nat.mod_lt _ (by omega)
      simp only [List.foldl_cons, List.foldl_nil, digitsStep, Option.bind_some,
        hdig (n % base) hmod, Option.map_some]
      have h1 : base * (n / base) + n % base = n := Nat.div_add_mod n base
      refine congrArg some ?_
      calc base * (acc * base ^ k + n / base) + n % base
          = acc * base ^ (k + 1) + (base * (n / base) + n % base) := by ring
        _ = acc * base ^ (k + 1) + n := by rw [h1]

theorem foldl_replicate_zero (dv : Char → Option Nat) (base : Nat)
    (hdv0 : dv '0' = some 0) (k : Nat) :
    List.foldl (digitsStep dv base) (some 0) (List.replicate k '0') = some 0 := by
  induction k with
  | zero => rfl
  | succ k ih =>
    rw [List.replicate_succ, List.foldl_cons]
    simpa [digitsStep, hdv0] using ih

theorem parse_zeroPad_toHexList (w n : Nat) :
    parseDigits hexVal 16 (zeroPad w (toHexList n)) = some n := by
  unfold parseDigits zeroPad
  rw [List.foldl_append, foldl_replicate_zero hexVal 16 (by decide)]
  unfold toHexList
  by_cases h0 : n = 0
  · subst h0; decide
  · rw [if_neg h0]
    obtain ⟨k, hk⟩ := foldl_digits_core hexVal 16 hexDigit (by omega)
      (fun m hm => (hexDigit_facts m hm).1) n n 0 le_rfl
    rw [hk]; simp

theorem parse_toDecList (n : Nat) :
    parseDigits decVal 10 (toDecList n) = some n := by
  unfold parseDigits toDecList
  by_cases h0 : n = 0
  · subst h0; decide
  · rw [if_neg h0]
    obtain ⟨k, hk⟩ := foldl_digits_core decVal 10 hexDigit (by omega)
      (fun m hm => (hexDigit_facts m (by omega)).2.2.2 hm) n n 0 le_rfl
    rw [hk]; simp

/-! ### Helper lemmas: dash splitting -/

theorem splitDash_no_dash : ∀ xs : List Char, '-' ∉ xs → splitDash xs = [xs] := by
  intro xs
  induction xs with
  | nil => intro _; rfl
  | cons c rest ih =>
    intro h
    have hc : ¬ c = '-' := fun hc => h (by simp [hc])
    have hrest : '-' ∉ rest := fun hr => h (by simp [hr])
    rw [splitDash, if_neg hc, ih hrest]

theorem splitDash_append : ∀ xs ys : List Char, '-' ∉ xs →
    splitDash (xs ++ '-' :: ys) = xs :: splitDash ys := by
  intro xs
  induction xs with
  | nil =>
    intro ys _
    rw [List.nil_append, splitDash, if_pos rfl]
  | cons c rest ih =>
    intro ys h
    have hc : ¬ c = '-' := fun hc => h (by simp [hc])
    have hrest : '-' ∉ rest := fun hr => h (by simp [hr])
    rw [List.cons_append, splitDash, if_neg hc, ih ys hrest]

/-! ### Helper lemmas: tokens of the formatted name -/

theorem hex_token_no_dash (w n : Nat) : '-' ∉ zeroPad w (toHexList n) := by
  intro h
  obtain ⟨m, hm, hc⟩ := mem_zeroPad_toHexList w n _ h
  exact (hexDigit_facts m hm).2.1 hc.symm

theorem dec_token_no_dash (n : Nat) : '-' ∉ toDecList n := by
  intro h
  obtain ⟨m, hm, hc⟩ := mem_toDecList n _ h
  exact (hexDigit_facts m (by omega)).2.1 hc.symm

theorem hex_token_ne_star (w n : Nat) : (⟨zeroPad w (toHexList n)⟩ : String) ≠ "*" := by
  intro h
  have hd : zeroPad w (toHexList n) = ['*'] := congrArg String.data h
  have hmem : '*' ∈ zeroPad w (toHexList n) := by rw [hd]; simp
  obtain ⟨m, hm, hc⟩ := mem_zeroPad_toHexList w n _ hmem
  exact (hexDigit_facts m hm).2.2.1 hc.symm

theorem dec_token_ne_star (n : Nat) : (⟨toDecList n⟩ : String) ≠ "*" := by
  intro h
  have hd : toDecList n = ['*'] := congrArg String.data h
  have hmem : '*' ∈ toDecList n := by rw [hd]; simp
  obtain ⟨m, hm, hc⟩ := mem_toDecList n _ hmem
  exact (hexDigit_facts m (by omega)).2.2.1 hc.symm

theorem parseAddrTok_hex (w n : Nat) :
    parseAddrTok ⟨zeroPad w (toHexList n)⟩ = some (some n) := by
  unfold parseAddrTok
  rw [if_neg (hex_token_ne_star w n)]
  unfold parseHexStr
  rw [if_neg (zeroPad_toHexList_ne_nil w n), parse_zeroPad_toHexList]
  rfl

theorem parseBusNrTok_dec (n : Nat) :
    parseBusNrTok ⟨toDecList n⟩ = some (some n) := by
  unfold parseBusNrTok
  rw [if_neg (dec_token_ne_star n)]
  unfold parseDecStr
  rw [if_neg (toDecList_ne_nil n), parse_toDecList]
  rfl

/-! ### Helper lemmas: the parser on a given token list -/

theorem parse_of_tokens_three (s p b a : String)
    (h : (splitDash s.data).map (fun l => String.mk l) = [p, b, a]) :
    sensors_parse_chip_name s =
      (if b = "i2c" then none
       else (parseAddrTok a).map fun ad =>
         ⟨parseTokenPre p,
           if b = "isa" then .isa else if b = "pci" then .pci else .dummy b,
           ad⟩) := by
  unfold sensors_parse_chip_name
  rw [h]

theorem parse_of_tokens_four (s p b n a : String)
    (h : (splitDash s.data).map (fun l => String.mk l) = [p, b, n, a]) :
    sensors_parse_chip_name s =
      (if b = "i2c" then
        (parseBusNrTok n).bind fun nr =>
          (parseAddrTok a).map fun ad => ⟨parseTokenPre p, .i2c nr, ad⟩
       else none) := by
  unfold sensors_parse_chip_name
  rw [h]

/-! ### Helper lemmas: token lists of each formatted shape -/

theorem tokens_isa (p : String) (a : Nat) (hp : '-' ∉ p.data) :
    (splitDash ((sprintf_chip_name ⟨p, .isa, a⟩).data)).map (fun l => String.mk l)
      = [p, "isa", hex4 a] := by
  have e : (sprintf_chip_name ⟨p, .isa, a⟩).data
      = p.data ++ '-' :: (['i', 's', 'a'] ++ '-' :: zeroPad 4 (toHexList a)) := by
    show (p.data ++ ['-', 'i', 's', 'a', '-']) ++ zeroPad 4 (toHexList a) = _
    rw [List.append_assoc]
    rfl
  rw [e, splitDash_append _ _ hp, splitDash_append _ _ (by decide),
    splitDash_no_dash _ (hex_token_no_dash 4 a)]
  rfl

theorem tokens_pci (p : String) (a : Nat) (hp : '-' ∉ p.data) :
    (splitDash ((sprintf_chip_name ⟨p, .pci, a⟩).data)).map (fun l => String.mk l)
      = [p, "pci", hex4 a] := by
  have e : (sprintf_chip_name ⟨p, .pci, a⟩).data
      = p.data ++ '-' :: (['p', 'c', 'i'] ++ '-' :: zeroPad 4 (toHexList a)) := by
    show (p.data ++ ['-', 'p', 'c', 'i', '-']) ++ zeroPad 4 (toHexList a) = _
    rw [List.append_assoc]
    rfl
  rw [e, splitDash_append _ _ hp, splitDash_append _ _ (by decide),
    splitDash_no_dash _ (hex_token_no_dash 4 a)]
  rfl

theorem tokens_dummy (p bn : String) (a : Nat) (hp : '-' ∉ p.data)
    (hbn : '-' ∉ bn.data) :
    (splitDash ((sprintf_chip_name ⟨p, .dummy bn, a⟩).data)).map (fun l => String.mk l)
      = [p, bn, hex4 a] := by
  have e : (sprintf_chip_name ⟨p, .dummy bn, a⟩).data
      = p.data ++ '-' :: (bn.data ++ '-' :: zeroPad 4 (toHexList a)) := by
    show ((p.data ++ ['-']) ++ bn.data ++ ['-']) ++ zeroPad 4 (toHexList a) = _
    simp
  rw [e, splitDash_append _ _ hp, splitDash_append _ _ hbn,
    splitDash_no_dash _ (hex_token_no_dash 4 a)]
  rfl

theorem tokens_i2c (p : String) (nr a : Nat) (hp : '-' ∉ p.data) :
    (splitDash ((sprintf_chip_name ⟨p, .i2c nr, a⟩).data)).map (fun l => String.mk l)
      = [p, "i2c", decStr nr, hex2 a] := by
  have e : (sprintf_chip_name ⟨p, .i2c nr, a⟩).data
      = p.data ++ '-' :: (['i', '2', 'c'] ++ '-' ::
          (toDecList nr ++ '-' :: zeroPad 2 (toHexList a))) := by
    show (((p.data ++ ['-', 'i', '2', 'c', '-']) ++ toDecList nr) ++ ['-'])
        ++ zeroPad 2 (toHexList a) = _
    simp
  rw [e, splitDash_append _ _ hp, splitDash_append _ _ (by decide),
    splitDash_append _ _ (dec_token_no_dash nr),
    splitDash_no_dash _ (hex_token_no_dash 2 a)]
  rfl

/-! ### Helper lemmas: a chip matches the spec parsed back from its own name -/

theorem match_isa_self (p : String) (a : Nat) :
    sensors_match_chip ⟨p, .isa, a⟩ ⟨parseTokenPre p, .isa, some a⟩ = true := by
  unfold sensors_match_chip parseTokenPre
  by_cases hp : p = "*" <;> simp [hp]

theorem match_pci_self (p : String) (a : Nat) :
    sensors_match_chip ⟨p, .pci, a⟩ ⟨parseTokenPre p, .pci, some a⟩ = true := by
  unfold sensors_match_chip parseTokenPre
  by_cases hp : p = "*" <;> simp [hp]

theorem match_dummy_self (p bn : String) (a : Nat) :
    sensors_match_chip ⟨p, .dummy bn, a⟩ ⟨parseTokenPre p, .dummy bn, some a⟩ = true := by
  unfold sensors_match_chip parseTokenPre
  by_cases hp : p = "*" <;> simp [hp]

theorem match_i2c_self (p : String) (nr a : Nat) :
    sensors_match_chip ⟨p, .i2c nr, a⟩ ⟨parseTokenPre p, .i2c (some nr), some a⟩ = true := by
  unfold sensors_match_chip parseTokenPre
  by_cases hp : p = "*" <;> simp [hp]

/-! ### Helper lemmas: the dispatcher in closed form -/

theorem scan_specs_eq_find (chip : ChipName) (specs : List ChipSpec) :
    scan_specs chip specs = specs.find? (fun sp => sensors_match_chip chip sp) := by
  induction specs with
  | nil => rfl
  | cons sp rest ih =>
    rw [scan_specs]
    by_cases h : sensors_match_chip chip sp
    · rw [if_pos h, List.find?_cons_of_pos _ h]
    · rw [if_neg h, List.find?_cons_of_neg _ (by simpa using h), ih]

theorem any_const_false {α : Type} (l : List α) : (l.any fun _ => false) = false := by
  induction l with
  | nil => rfl
  | cons a l ih => simp [List.any_cons, ih]

theorem join_map_const_nil {α : Type} (l : List α) :
    ((l.map fun _ => ([] : List String)).flatten) = [] := by
  induction l with
  | nil => rfl
  | cons a l ih => simp [List.map_cons, ih]

theorem run_eq (fl : Flags) (adapterName : BusId → Option String)
    (genericChip unknownChip : ChipName → List String)
    (doChipSets : ChipName → Int) (strerror : Int → String)
    (specs : List ChipSpec) (detected : List ChipName) :
    do_the_real_work fl adapterName genericChip unknownChip doChipSets strerror
        specs detected =
      { cnt := (detected.filter fun c => (scan_specs c specs).isSome).length
        error := (detected.filter fun c => (scan_specs c specs).isSome).any
                   fun c => fl.do_sets && (do_a_set doChipSets strerror c).1
        out := ((detected.filter fun c => (scan_specs c specs).isSome).map
                 fun c => if fl.do_sets then []
                          else (do_a_print fl adapterName genericChip unknownChip c).1).flatten
        err := ((detected.filter fun c => (scan_specs c specs).isSome).map
                 fun c => if fl.do_sets then (do_a_set doChipSets strerror c).2
                          else (do_a_print fl adapterName genericChip unknownChip c).2).flatten
        dispatched := detected.filter fun c => (scan_specs c specs).isSome } := by
  induction detected with
  | nil => rfl
  | cons chip rest ih =>
    rw [do_the_real_work, ih]
    cases h : scan_specs chip specs with
    | none => simp [List.filter_cons, h]
    | some sp =>
      cases hds : fl.do_sets <;>
        simp [List.filter_cons, h, hds, List.any_cons, List.map_cons, List.flatten]

/-! ### Helper lemmas: spec-list construction -/

theorem build_specs_go_ok : ∀ (args : List (Option ChipSpec)) (cnt : Nat)
    (acc : List ChipSpec), (∀ x ∈ args, x ≠ none) → cnt + args.length < CHIPS_MAX →
    build_specs_go args cnt acc = .ok (acc ++ args.filterMap id) := by
  intro args
  induction args with
  | nil => intro cnt acc _ _; simp [build_specs_go]
  | cons x rest ih =>
    intro cnt acc hsome hlen
    match x, hsome x (by simp) with
    | some sp, _ =>
      rw [build_specs_go, if_neg (by simp at hlen ⊢; omega)]
      rw [ih (cnt + 1) (acc ++ [sp]) (fun y hy => hsome y (by simp [hy]))
        (by simp at hlen ⊢; omega)]
      simp

theorem build_specs_go_too_many : ∀ (args : List (Option ChipSpec)) (cnt : Nat)
    (acc : List ChipSpec), (∀ x ∈ args, x ≠ none) → cnt < CHIPS_MAX →
    CHIPS_MAX ≤ cnt + args.length → build_specs_go args cnt acc = .tooMany := by
  intro args
  induction args with
  | nil =>
    intro cnt acc _ hcnt hlen
    simp at hlen
    omega
  | cons x rest ih =>
    intro cnt acc hsome hcnt hlen
    match x, hsome x (by simp) with
    | some sp, _ =>
      rw [build_specs_go]
      by_cases h20 : cnt + 1 = CHIPS_MAX
      · rw [if_pos h20]
      · rw [if_neg h20]
        exact ih (cnt + 1) (acc ++ [sp]) (fun y hy => hsome y (by simp [hy]))
          (by omega) (by simp at hlen ⊢; omega)

theorem parseAddrTok_hex4 (n : Nat) : parseAddrTok (hex4 n) = some (some n) :=
  parseAddrTok_hex 4 n

theorem parseAddrTok_hex2 (n : Nat) : parseAddrTok (hex2 n) = some (some n) :=
  parseAddrTok_hex 2 n

theorem parseBusNrTok_decStr (n : Nat) : parseBusNrTok (decStr n) = some (some n) :=
  parseBusNrTok_dec n

theorem toDigitsCore_length_le (base : Nat) (dig : Nat → Char) (hb : 1 < base) :
    ∀ fuel n k, n < base ^ k → (toDigitsCore base dig fuel n).length ≤ k := by
  intro fuel
  induction fuel with
  | zero => intro n k _; simp [toDigitsCore]
  | succ fuel ih =>
    intro n k h
    rw [toDigitsCore]
    by_cases h0 : n = 0
    · rw [if_pos h0]; simp
    · rw [if_neg h0]
      rcases k with _ | k
      · simp at h; omega
      · have hdiv : n / base < base ^ k := by
          rw [Nat.div_lt_iff_lt_mul (by omega)]
          calc n < base ^ (k + 1) := h
            _ = base ^ k * base := by ring
        have := ih (n / base) k hdiv
        simp only [List.length_append, List.length_cons, List.length_nil]
        omega

/-! ## Claims -/

/-- C1 (counterexample): a two-chip Set run where the external capability
returns the partial-write-failure code for the first chip and success for the
second: both chips are processed and a diagnostic is emitted, but the run's
aggregate error flag stays false — contradicting the claim that every
non-zero status code sets it. -/
theorem c1_counterexample :
    (do_the_real_work ⟨true, false, false, false⟩ (fun _ => none) (fun _ => [])
        (fun _ => []) (fun c => if c.addr = 72 then -SENSORS_ERR_ACCESS_W else 0)
        (fun _ => "") [⟨none, BusPattern.any, none⟩]
        [⟨"lm75", BusId.i2c 0, 72⟩, ⟨"lm78", BusId.isa, 45⟩]).error = false ∧
    (do_the_real_work ⟨true, false, false, false⟩ (fun _ => none) (fun _ => [])
        (fun _ => []) (fun c => if c.addr = 72 then -SENSORS_ERR_ACCESS_W else 0)
        (fun _ => "") [⟨none, BusPattern.any, none⟩]
        [⟨"lm75", BusId.i2c 0, 72⟩, ⟨"lm78", BusId.isa, 45⟩]).cnt = 2 ∧
    (do_the_real_work ⟨true, false, false, false⟩ (fun _ => none) (fun _ => [])
        (fun _ => []) (fun c => if c.addr = 72 then -SENSORS_ERR_ACCESS_W else 0)
        (fun _ => "") [⟨none, BusPattern.any, none⟩]
        [⟨"lm75", BusId.i2c 0, 72⟩, ⟨"lm78", BusId.isa, 45⟩]).err ≠ [] := by
  decide

/-- C1 (amended): in Set mode the Set action reports failure — and thereby
sets the run's aggregate error flag — exactly when the external apply-writes
capability returns the permission code; every other non-zero code emits a
diagnostic but leaves the action's result (and hence the flag) at success;
and in every case iteration continues over all remaining detected chips (the
dispatched count always equals the number of matched chips, failures or
not). -/
theorem c1_set_failure_classification :
    ∀ (f : ChipName → Int) (se : Int → String) (name : ChipName),
      ((do_a_set f se name).1 = true ↔ f name = -SENSORS_ERR_PROC) ∧
      (f name ≠ 0 → (do_a_set f se name).2 ≠ []) ∧
      (∀ (fl : Flags) (A : BusId → Option String) (G U : ChipName → List String)
        (specs : List ChipSpec) (detected : List ChipName),
        (do_the_real_work fl A G U f se specs detected).cnt =
          (detected.filter fun c => (scan_specs c specs).isSome).length) := by
  intro f se name
  refine ⟨?_, ?_, fun fl A G U specs detected => by rw [run_eq]⟩
  · unfold do_a_set
    by_cases h0 : f name ≠ 0
    · rw [if_pos h0]
      by_cases hp : f name = -SENSORS_ERR_PROC
      · rw [if_pos hp]; simp [hp]
      · rw [if_neg hp]
        by_cases hw : f name = -SENSORS_ERR_ACCESS_W
        · rw [if_pos hw]; simp [hp]
        · rw [if_neg hw]; simp [hp]
    · rw [if_neg h0]
      have h0' : f name = 0 := not_not.mp h0
      simp [h0', SENSORS_ERR_PROC]
  · intro h0
    unfold do_a_set
    rw [if_pos h0]
    by_cases hp : f name = -SENSORS_ERR_PROC
    · rw [if_pos hp]; simp
    · rw [if_neg hp]
      by_cases hw : f name = -SENSORS_ERR_ACCESS_W
      · rw [if_pos hw]; simp
      · rw [if_neg hw]; simp

/-- C1 (witness): with the partial-write code the amended theorem yields a
non-empty diagnostic and a success result for the action. -/
theorem c1_set_failure_classification_witness :
    (do_a_set (fun _ => -SENSORS_ERR_ACCESS_W) (fun _ => "")
        ⟨"lm78", BusId.isa, 45⟩).2 ≠ [] ∧
    (do_a_set (fun _ => -SENSORS_ERR_ACCESS_W) (fun _ => "")
        ⟨"lm78", BusId.isa, 45⟩).1 = false := by
  constructor
  · exact (c1_set_failure_classification (fun _ => -SENSORS_ERR_ACCESS_W) (fun _ => "")
      ⟨"lm78", BusId.isa, 45⟩).2.1 (by decide)
  · have h := (c1_set_failure_classification (fun _ => -SENSORS_ERR_ACCESS_W) (fun _ => "")
      ⟨"lm78", BusId.isa, 45⟩).1
    cases hb : (do_a_set (fun _ => -SENSORS_ERR_ACCESS_W) (fun _ => "")
        ⟨"lm78", BusId.isa, 45⟩).1
    · rfl
    · exact absurd (h.mp hb) (by decide)

/-- C2: the dispatcher scans specs in command-line order — the spec acted on
is the first match — and its whole observable behavior is characterized over
the chips that have some matching spec: exactly those chips are dispatched,
in enumeration order and once per enumerated chip, the count equals their
number, the error flag and the output are accumulated only from them; a chip
matching no spec contributes nothing (no action, no count, no error). -/
theorem c2_first_match_single_dispatch :
    ∀ (fl : Flags) (A : BusId → Option String) (G U : ChipName → List String)
      (f : ChipName → Int) (se : Int → String)
      (specs : List ChipSpec) (detected : List ChipName),
      (∀ c, scan_specs c specs = specs.find? fun sp => sensors_match_chip c sp) ∧
      do_the_real_work fl A G U f se specs detected =
        { cnt := (detected.filter fun c => (scan_specs c specs).isSome).length
          error := (detected.filter fun c => (scan_specs c specs).isSome).any
                     fun c => fl.do_sets && (do_a_set f se c).1
          out := ((detected.filter fun c => (scan_specs c specs).isSome).map
                   fun c => if fl.do_sets then []
                            else (do_a_print fl A G U c).1).flatten
          err := ((detected.filter fun c => (scan_specs c specs).isSome).map
                   fun c => if fl.do_sets then (do_a_set f se c).2
                            else (do_a_print fl A G U c).2).flatten
          dispatched := detected.filter fun c => (scan_specs c specs).isSome } :=
  fun fl A G U f se specs detected =>
    ⟨fun c => scan_specs_eq_find c specs, run_eq fl A G U f se specs detected⟩

/-- C3: the formatter renders ISA chips as prefix-isa-%04x, PCI chips as
prefix-pci-%04x, DUMMY chips as prefix-busname-%04x and every other bus as
prefix-i2c-%d-%02x; the hex field is 4 characters for addresses below 2^16
and always consists of lowercase hexadecimal digit characters; in particular
the two examples of the claim render as stated. -/
theorem c3_chip_name_format :
    (∀ (p : String) (a : Nat),
      sprintf_chip_name ⟨p, .isa, a⟩ = p ++ "-isa-" ++ hex4 a) ∧
    (∀ (p : String) (a : Nat),
      sprintf_chip_name ⟨p, .pci, a⟩ = p ++ "-pci-" ++ hex4 a) ∧
    (∀ (p bn : String) (a : Nat),
      sprintf_chip_name ⟨p, .dummy bn, a⟩ = p ++ "-" ++ bn ++ "-" ++ hex4 a) ∧
    (∀ (p : String) (n a : Nat),
      sprintf_chip_name ⟨p, .i2c n, a⟩ = p ++ "-i2c-" ++ decStr n ++ "-" ++ hex2 a) ∧
    (∀ a : Nat, a < 65536 → (hex4 a).length = 4) ∧
    (∀ a : Nat, ∀ c ∈ (hex4 a).data, ∃ m, m < 16 ∧ c = hexDigit m) ∧
    sprintf_chip_name ⟨"lm78", BusId.isa, 45⟩ = "lm78-isa-002d" ∧
    sprintf_chip_name ⟨"lm75", BusId.i2c 0, 72⟩ = "lm75-i2c-0-48" ∧
    sprintf_chip_name ⟨"sis5595", BusId.pci, 1056⟩ = "sis5595-pci-0420" ∧
    sprintf_chip_name ⟨"eeprom", BusId.dummy "dummy0", 80⟩ = "eeprom-dummy0-0050" ∧
    sprintf_chip_name ⟨"w83781d", BusId.i2c 9, 45⟩ = "w83781d-i2c-9-2d" := by
  refine ⟨fun p a => rfl, fun p a => rfl, fun p bn a => rfl, fun p n a => rfl,
    ?_, fun a c h => mem_zeroPad_toHexList 4 a c h,
    by decide, by decide, by decide, by decide, by decide⟩
  intro a ha
  have hlen : (toHexList a).length ≤ 4 := by
    unfold toHexList
    by_cases h0 : a = 0
    · rw [if_pos h0]; simp
    · rw [if_neg h0]
      exact toDigitsCore_length_le 16 hexDigit (by omega) a a 4 (by omega)
  show (zeroPad 4 (toHexList a)).length = 4
  unfold zeroPad
  simp only [List.length_append, List.length_replicate]
  omega

/-- C3 (witness): the 4-digit-width statement applied at the claim's own
ISA example address, and the lowercase-hex-digit statement at one of its
characters. -/
theorem c3_chip_name_format_witness :
    (hex4 45).length = 4 ∧ (∃ m, m < 16 ∧ 'd' = hexDigit m) := by
  constructor
  · exact c3_chip_name_format.2.2.2.2.1 45 (by decide)
  · exact c3_chip_name_format.2.2.2.2.2.1 45 'd' (by decide)

/-- C4 (counterexample): a command line of exactly 20 well-formed patterns —
the claimed capacity — is already rejected: after the 20th successful parse
the incremented count equals CHIPS_MAX and main exits fatally, so dispatch
never proceeds. -/
theorem c4_counterexample :
    build_specs (List.replicate 20 (some ⟨none, BusPattern.any, none⟩))
      = .tooMany := by decide

/-- C4 (amended): the program accepts up to 19 chip-name patterns: every
argument list of at most 19 well-formed patterns is parsed in full into the
spec list (the no-argument case yielding the single all-wildcard spec), and
every list of 20 or more well-formed patterns is a fatal startup error —
never a silent truncation. -/
theorem c4_capacity :
    ∀ args : List (Option ChipSpec), (∀ x ∈ args, x ≠ none) →
      (args.length < CHIPS_MAX →
        build_specs args =
          .ok (if args.isEmpty then [⟨none, .any, none⟩] else args.filterMap id)) ∧
      (CHIPS_MAX ≤ args.length → build_specs args = .tooMany) := by
  intro args hsome
  constructor
  · intro hlen
    match args, hsome with
    | [], _ => rfl
    | x :: rest, hsome =>
      show build_specs_go (x :: rest) 0 [] = _
      rw [build_specs_go_ok (x :: rest) 0 [] hsome (by simpa using hlen)]
      simp
  · intro hlen
    match args, hsome with
    | [], _ => simp [CHIPS_MAX] at hlen
    | x :: rest, hsome =>
      show build_specs_go (x :: rest) 0 [] = _
      exact build_specs_go_too_many (x :: rest) 0 [] hsome
        (by simp [CHIPS_MAX]) (by simpa using hlen)

/-- C4 (witness): a single well-formed pattern is parsed and kept. -/
theorem c4_capacity_witness :
    build_specs [some ⟨some "lm78", BusPattern.isa, some 45⟩]
      = .ok [⟨some "lm78", BusPattern.isa, some 45⟩] := by
  have h := (c4_capacity [some ⟨some "lm78", BusPattern.isa, some 45⟩]
    (by decide)).1 (by decide)
  simpa using h

/-- C5 (counterexample): the round-trip fails for a detected DUMMY chip whose
bus name is the reserved keyword `isa`: its formatted name parses as an ISA
pattern, which does not match the chip, contradicting the claim for every
detected chip of every bus kind. -/
theorem c5_counterexample :
    sensors_parse_chip_name (sprintf_chip_name ⟨"lm78", BusId.dummy "isa", 45⟩) =
      some ⟨some "lm78", BusPattern.isa, some 45⟩ ∧
    sensors_match_chip ⟨"lm78", BusId.dummy "isa", 45⟩
      ⟨some "lm78", BusPattern.isa, some 45⟩ = false := by decide

/-- C5 (amended): for every detected chip whose driver name contains no dash
and whose bus, when DUMMY, has a bus name free of dashes and distinct from
the reserved keywords `isa`, `pci` and `i2c`, parsing the formatted name
back yields a pattern that matches the chip. -/
theorem c5_roundtrip :
    ∀ d : ChipName, '-' ∉ d.pre.data → wf_bus d.bus →
      ∃ sp, sensors_parse_chip_name (sprintf_chip_name d) = some sp ∧
        sensors_match_chip d sp = true := by
  intro d hp hbus
  obtain ⟨p, bus, a⟩ := d
  cases bus with
  | isa =>
    refine ⟨⟨parseTokenPre p, .isa, some a⟩, ?_, match_isa_self p a⟩
    rw [parse_of_tokens_three _ p "isa" (hex4 a) (tokens_isa p a hp)]
    rw [if_neg (by decide), parseAddrTok_hex4 a]
    rfl
  | pci =>
    refine ⟨⟨parseTokenPre p, .pci, some a⟩, ?_, match_pci_self p a⟩
    rw [parse_of_tokens_three _ p "pci" (hex4 a) (tokens_pci p a hp)]
    rw [if_neg (by decide), parseAddrTok_hex4 a]
    rfl
  | dummy bn =>
    obtain ⟨hbn, hisa, hpci, hi2c⟩ := hbus
    refine ⟨⟨parseTokenPre p, .dummy bn, some a⟩, ?_, match_dummy_self p bn a⟩
    rw [parse_of_tokens_three _ p bn (hex4 a) (tokens_dummy p bn a hp hbn)]
    rw [if_neg hi2c, parseAddrTok_hex4 a]
    simp [hisa, hpci]
  | i2c nr =>
    refine ⟨⟨parseTokenPre p, .i2c (some nr), some a⟩, ?_, match_i2c_self p nr a⟩
    rw [parse_of_tokens_four _ p "i2c" (decStr nr) (hex2 a) (tokens_i2c p nr a hp)]
    rw [if_pos rfl, parseBusNrTok_decStr nr]
    simp [parseAddrTok_hex2]

/-- C5 (witness): the round-trip theorem applied to the claim's ISA
example chip. -/
theorem c5_roundtrip_witness :
    ∃ sp, sensors_parse_chip_name (sprintf_chip_name ⟨"lm78", BusId.isa, 45⟩) =
        some sp ∧
      sensors_match_chip ⟨"lm78", BusId.isa, 45⟩ sp = true :=
  c5_roundtrip ⟨"lm78", BusId.isa, 45⟩ (by decide) trivial

/-- C6: with zero chip-name patterns on the command line the spec list is
exactly one entry with the prefix, bus and address fields all the ANY
wildcard, and that spec matches every detected chip. -/
theorem c6_default_spec :
    build_specs [] = .ok [⟨none, BusPattern.any, none⟩] ∧
    ∀ d : ChipName, sensors_match_chip d ⟨none, BusPattern.any, none⟩ = true := by
  refine ⟨rfl, fun d => ?_⟩
  obtain ⟨p, b, a⟩ := d
  cases b <;> rfl

/-- C7: with zero detected chips the dispatcher returns a zero count and a
false error flag (and produces no output and dispatches nothing), whatever
the spec list, the flags and the external capabilities. -/
theorem c7_no_detected_chips :
    ∀ (fl : Flags) (A : BusId → Option String) (G U : ChipName → List String)
      (f : ChipName → Int) (se : Int → String) (specs : List ChipSpec),
      do_the_real_work fl A G U f se specs [] = ⟨0, false, [], [], []⟩ := by
  intro fl A G U f se specs
  rfl

/-- C8: in Print mode the aggregate error flag is false at the end of every
run, whatever the chips, specs, flags and capabilities; and a failed
adapter-name lookup surfaces as a stderr diagnostic of the Print action only
(shown here with the adapter capability failing on every bus). -/
theorem c8_print_mode_no_error :
    ∀ (A : BusId → Option String) (G U : ChipName → List String)
      (f : ChipName → Int) (se : Int → String) (specs : List ChipSpec)
      (detected : List ChipName) (du ha hu : Bool),
      (do_the_real_work ⟨false, du, ha, hu⟩ A G U f se specs detected).error = false ∧
      ∀ name : ChipName,
        (do_a_print ⟨false, du, false, false⟩ (fun _ => none) G U name).2 =
          ["Can't get adapter name for bus " ++ intRepr (busCode name.bus)] := by
  intro A G U f se specs detected du ha hu
  refine ⟨?_, fun name => rfl⟩
  rw [run_eq]
  simp only []
  simp [any_const_false]

/-- C10: under the hide-unknown flag the Print action returns immediately
with no output at all, yet the dispatcher still counts every matched chip;
concretely, a one-chip run in that configuration ends with count 1, empty
stdout, and exit status 0. -/
theorem c10_hide_unknown_counts_silently :
    ∀ (A : BusId → Option String) (G U : ChipName → List String)
      (f : ChipName → Int) (se : Int → String) (specs : List ChipSpec)
      (detected : List ChipName) (du ha : Bool) (name : ChipName),
      do_a_print ⟨false, du, ha, true⟩ A G U name = ([], []) ∧
      (do_the_real_work ⟨false, du, ha, true⟩ A G U f se specs detected).out = [] ∧
      (do_the_real_work ⟨false, du, ha, true⟩ A G U f se specs detected).cnt =
        (detected.filter fun c => (scan_specs c specs).isSome).length ∧
      (do_the_real_work ⟨false, false, false, true⟩ (fun _ => none) (fun _ => [])
          (fun _ => []) (fun _ => 0) (fun _ => "") [⟨none, BusPattern.any, none⟩]
          [⟨"lm78", BusId.isa, 45⟩]).cnt = 1 ∧
      (do_the_real_work ⟨false, false, false, true⟩ (fun _ => none) (fun _ => [])
          (fun _ => []) (fun _ => 0) (fun _ => "") [⟨none, BusPattern.any, none⟩]
          [⟨"lm78", BusId.isa, 45⟩]).out = [] ∧
      main_exit [⟨none, BusPattern.any, none⟩]
        (do_the_real_work ⟨false, false, false, true⟩ (fun _ => none) (fun _ => [])
          (fun _ => []) (fun _ => 0) (fun _ => "") [⟨none, BusPattern.any, none⟩]
          [⟨"lm78", BusId.isa, 45⟩]).cnt
        (do_the_real_work ⟨false, false, false, true⟩ (fun _ => none) (fun _ => [])
          (fun _ => []) (fun _ => 0) (fun _ => "") [⟨none, BusPattern.any, none⟩]
          [⟨"lm78", BusId.isa, 45⟩]).error = (0, []) := by
  intro A G U f se specs detected du ha name
  refine ⟨rfl, ?_, ?_, by decide, by decide, by decide⟩
  · rw [run_eq]
    simp only []
    have hprint : ∀ c : ChipName,
        do_a_print ⟨false, du, ha, true⟩ A G U c = ([], []) := fun c => rfl
    simp [hprint, join_map_const_nil]
  · rw [run_eq]

/-- C9: the caller exits non-zero whenever the dispatcher handled no chip
(after emitting the not-found message) and whenever the error flag is set;
it exits zero exactly when some chip was handled and the flag is clear. -/
theorem c9_exit_status :
    ∀ (chips : List ChipSpec) (cnt : Nat) (e : Bool),
      ((main_exit chips cnt e).1 = 0 ↔ (cnt ≠ 0 ∧ e = false)) ∧
      (main_exit chips 0 e).2 = [not_found_message chips] := by
  intro chips cnt e
  refine ⟨?_, rfl⟩
  unfold main_exit
  by_cases h : cnt = 0
  · subst h; simp
  · simp only [h, ne_eq, not_false_eq_true, if_true, if_pos]
    cases e <;> simp [h]
